/-
Verification of the MSA SDK REST client (`msa_sdk/msa_api.py`, with its caller
`msa_sdk/order.py`).

The development shallowly embeds the request/response lifecycle wrapper:

* a model of JSON values and of Python's `json.dumps` (default separators
  `", "` / `": "`, `ensure_ascii=True` escaping) and `json.loads`;
* the envelope encoder `MSA_API.process_content`, the task reporters
  `task_error` / `task_success`, the `content` property, response
  classification `check_response`, the POST/GET transport wrappers, and the
  trace-header machinery `add_trace_headers` / `create_trace_id`.

Numbers are modelled as integers (the SDK's envelopes and the claims under
study never exercise floating-point payloads).  Python dictionaries are
modelled as association lists; a list models a dictionary when its keys are
distinct, which the `jsonDictOk` predicate captures.
-/
import Mathlib

namespace MsaSdk

/-! ## Characters and digit strings -/

/-- Lowercase hexadecimal digits, the alphabet of `'%x' % n` in Python. -/
def isLowerHex (c : Char) : Bool :=
  ("0123456789abcdef".data).contains c

/-- ASCII decimal digit test. -/
def isDecDigit (c : Char) : Bool :=
  48 ≤ c.toNat && c.toNat ≤ 57

/-- JSON whitespace characters skipped by `json.loads`. -/
def isJsonWs (c : Char) : Bool :=
  c = ' ' || c = '\t' || c = '\n' || c = '\r'

/-- Digits of `n` in base `base`, most significant first, with an explicit
fuel argument so the definition is structurally recursive (the fuel never
runs out when it starts at least at `n + 1`). -/
def natDigitsFuel (base : Nat) : Nat → Nat → List Char
  | 0, _ => []
  | fuel + 1, n =>
    if n < base then [Nat.digitChar n]
    else natDigitsFuel base fuel (n / base) ++ [Nat.digitChar (n % base)]

/-- Digits of `n` in base `base`, most significant first; `natDigits 10 n`
is Python's `str(n)` for `n ≥ 0` and `natDigits 16 n` is `'%x' % n`. -/
def natDigits (base n : Nat) : List Char :=
  natDigitsFuel base (n + 1) n

/-- Zero padding on the left to width `w`, as in `'%032x' % n`: shorter
strings are padded, longer strings are kept whole. -/
def padZeroes (w : Nat) (l : List Char) : List Char :=
  List.replicate (w - l.length) '0' ++ l

theorem natDigitsFuel_irrel (base : Nat) (hbase : 2 ≤ base) :
    ∀ f f' n, n < f → n < f' → natDigitsFuel base f n = natDigitsFuel base f' n := by
  intro f
  induction f with
  | zero => intro f' n h h'; omega
  | succ g ih =>
    intro f' n hf hf'
    cases f' with
    | zero => omega
    | succ g' =>
      by_cases hb : n < base
      · simp [natDigitsFuel, hb]
      · have hn : 0 < n := by omega
        have hdiv : n / base < n := Nat.div_lt_self hn (by omega)
        simp only [natDigitsFuel, hb, if_false]
        rw [ih g' (n / base) (by omega) (by omega)]

/-- Unfolding rule: one digit for small numbers. -/
theorem natDigits_small {base n : Nat} (h : n < base) :
    natDigits base n = [Nat.digitChar n] := by
  simp [natDigits, natDigitsFuel, h]

/-- Unfolding rule: peel the least significant digit. -/
theorem natDigits_step {base n : Nat} (hb : 2 ≤ base) (h : base ≤ n) :
    natDigits base n = natDigits base (n / base) ++ [Nat.digitChar (n % base)] := by
  have hn : 0 < n := by omega
  have hdiv : n / base < n := Nat.div_lt_self hn (by omega)
  have hstep : natDigitsFuel base (n + 1) n
      = natDigitsFuel base n (n / base) ++ [Nat.digitChar (n % base)] := by
    simp [natDigitsFuel, Nat.not_lt.mpr h]
  show natDigitsFuel base (n + 1) n = _
  rw [hstep, natDigitsFuel_irrel base hb n (n / base + 1) (n / base) hdiv (by omega)]
  rfl

theorem natDigits_ne_nil (base n : Nat) (hb : 2 ≤ base) : natDigits base n ≠ [] := by
  by_cases h : n < base
  · simp [natDigits_small h]
  · simp [natDigits_step hb (Nat.not_lt.mp h)]

/-- Every digit emitted is `Nat.digitChar` of a value below the base. -/
theorem natDigits_chars (base : Nat) (hb : 2 ≤ base) :
    ∀ n, ∀ c ∈ natDigits base n, ∃ k, k < base ∧ c = Nat.digitChar k := by
  intro n
  induction n using Nat.strong_induction_on with
  | _ n ih =>
    intro c hc
    by_cases h : n < base
    · rw [natDigits_small h] at hc
      simp at hc
      exact ⟨n, h, hc⟩
    · rw [natDigits_step hb (Nat.not_lt.mp h)] at hc
      rw [List.mem_append] at hc
      rcases hc with hc | hc
      · exact ih (n / base) (Nat.div_lt_self (by omega) (by omega)) c hc
      · simp at hc
        exact ⟨n % base, Nat.mod_lt _ (by omega), hc⟩

/-- If `n < base ^ k` (with `k ≥ 1`) then `n` has at most `k` digits. -/
theorem natDigits_length_le (base : Nat) (hb : 2 ≤ base) :
    ∀ n k, 1 ≤ k → n < base ^ k → (natDigits base n).length ≤ k := by
  intro n
  induction n using Nat.strong_induction_on with
  | _ n ih =>
    intro k hk hlt
    by_cases h : n < base
    · rw [natDigits_small h]; simpa using hk
    · have hk2 : 2 ≤ k := by
        by_contra hcon
        have : k = 1 := by omega
        subst this
        simp at hlt
        omega
      rw [natDigits_step hb (Nat.not_lt.mp h)]
      rw [List.length_append]
      have hdivlt : n / base < base ^ (k - 1) := by
        rw [Nat.div_lt_iff_lt_mul (by omega)]
        calc n < base ^ k := hlt
        _ = base ^ (k - 1) * base := by
              rw [← pow_succ]
              congr 1
              omega
      have := ih (n / base) (Nat.div_lt_self (by omega) (by omega)) (k - 1) (by omega) hdivlt
      simp only [List.length_singleton]
      omega

/-- The head digit of any `natDigits` rendering. -/
theorem natDigits_head (base : Nat) (hb : 2 ≤ base) (n : Nat) :
    ∃ k t, k < base ∧ natDigits base n = Nat.digitChar k :: t := by
  by_cases h : n < base
  · exact ⟨n, [], h, natDigits_small h⟩
  · rcases hhead : natDigits base (n / base) with _ | ⟨c, t⟩
    · exact absurd hhead (natDigits_ne_nil base (n / base) hb)
    · have hc : ∃ k, k < base ∧ c = Nat.digitChar k := by
        apply natDigits_chars base hb (n / base)
        rw [hhead]; simp
      rcases hc with ⟨k, hk, rfl⟩
      refine ⟨k, t ++ [Nat.digitChar (n % base)], hk, ?_⟩
      rw [natDigits_step hb (Nat.not_lt.mp h), hhead]
      simp

/-! ## JSON values

`Json` models the JSON-serializable Python values the SDK passes through
`json.dumps` / `json.loads`: `None`, booleans, integers, strings, lists and
dictionaries (as association lists in insertion order). -/

inductive Json where
  | null
  | bool (b : Bool)
  | num (n : Int)
  | str (s : String)
  | arr (elems : List Json)
  | obj (members : List (String × Json))

/-- Four lowercase hexadecimal digits, as in the `\uXXXX` escapes that
`json.dumps(..., ensure_ascii=True)` emits. -/
def hex4 (n : Nat) : List Char :=
  [Nat.digitChar (n / 4096 % 16), Nat.digitChar (n / 256 % 16),
   Nat.digitChar (n / 16 % 16), Nat.digitChar (n % 16)]

/-- `json.dumps` escaping of one character (CPython's ASCII string encoder):
`"` and `\` get two-character escapes, printable ASCII is copied, the five
short control escapes are used for backspace, tab, newline, form feed and
carriage return, and everything else becomes `\uXXXX` (a surrogate pair for
code points beyond the basic multilingual plane). -/
def escChar (c : Char) : List Char :=
  if c = '"' then ['\\', '"']
  else if c = '\\' then ['\\', '\\']
  else if 0x20 ≤ c.toNat && c.toNat ≤ 0x7e then [c]
  else if c = '\x08' then ['\\', 'b']
  else if c = '\t' then ['\\', 't']
  else if c = '\n' then ['\\', 'n']
  else if c = '\x0c' then ['\\', 'f']
  else if c = '\r' then ['\\', 'r']
  else if c.toNat < 0x10000 then '\\' :: 'u' :: hex4 c.toNat
  else ('\\' :: 'u' :: hex4 (0xd800 + (c.toNat - 0x10000) / 0x400)) ++
       ('\\' :: 'u' :: hex4 (0xdc00 + (c.toNat - 0x10000) % 0x400))

/-- Escape a whole string body. -/
def escape : List Char → List Char
  | [] => []
  | c :: cs => escChar c ++ escape cs

/-- A JSON string literal: quote, escaped body, quote. -/
def dumpsStr (s : String) : List Char :=
  '"' :: escape s.data ++ ['"']

/-- `json.dumps` for an integer, i.e. Python's `str(n)`. -/
def dumpsInt (n : Int) : List Char :=
  if n < 0 then '-' :: natDigits 10 n.natAbs else natDigits 10 n.natAbs

mutual

/-- `json.dumps` with the default separators `", "` and `": "` and
`ensure_ascii=True`, as called by `MSA_API.process_content`. -/
def dumpsVal : Json → List Char
  | .null => "null".data
  | .bool true => "true".data
  | .bool false => "false".data
  | .num n => dumpsInt n
  | .str s => dumpsStr s
  | .arr [] => "[]".data
  | .arr (x :: xs) => '[' :: (dumpsVal x ++ dumpsElems xs) ++ [']']
  | .obj [] => "{}".data
  | .obj ((k, v) :: ms) =>
    '{' :: (dumpsStr k ++ ':' :: ' ' :: dumpsVal v ++ dumpsMembers ms) ++ ['}']

/-- Remaining array elements, each preceded by the `", "` item separator. -/
def dumpsElems : List Json → List Char
  | [] => []
  | x :: xs => ',' :: ' ' :: dumpsVal x ++ dumpsElems xs

/-- Remaining object members, each preceded by `", "`, with the `": "` key
separator inside. -/
def dumpsMembers : List (String × Json) → List Char
  | [] => []
  | (k, v) :: ms => ',' :: ' ' :: (dumpsStr k ++ ':' :: ' ' :: dumpsVal v) ++ dumpsMembers ms

end

/-- `json.dumps(v)` as a Lean string. -/
def dumps (v : Json) : String := ⟨dumpsVal v⟩

mutual

/-- `json.dumps(v, indent=4)`: the pretty serialization `process_content`
logs. `ind` is the current indentation level in spaces. -/
def pdumpsVal (ind : Nat) : Json → List Char
  | .null => "null".data
  | .bool true => "true".data
  | .bool false => "false".data
  | .num n => dumpsInt n
  | .str s => dumpsStr s
  | .arr [] => "[]".data
  | .arr (x :: xs) =>
    '[' :: '\n' :: (List.replicate (ind + 4) ' ' ++ pdumpsVal (ind + 4) x ++
      pdumpsElems (ind + 4) xs) ++ '\n' :: List.replicate ind ' ' ++ [']']
  | .obj [] => "{}".data
  | .obj ((k, v) :: ms) =>
    '{' :: '\n' :: (List.replicate (ind + 4) ' ' ++ dumpsStr k ++ ':' :: ' ' ::
      pdumpsVal (ind + 4) v ++ pdumpsMembers (ind + 4) ms) ++
      '\n' :: List.replicate ind ' ' ++ ['}']

/-- Remaining pretty array elements, each preceded by `","`, a newline and
the indentation. -/
def pdumpsElems (ind : Nat) : List Json → List Char
  | [] => []
  | x :: xs =>
    ',' :: '\n' :: (List.replicate ind ' ' ++ pdumpsVal ind x) ++ pdumpsElems ind xs

/-- Remaining pretty object members. -/
def pdumpsMembers (ind : Nat) : List (String × Json) → List Char
  | [] => []
  | (k, v) :: ms =>
    ',' :: '\n' :: (List.replicate ind ' ' ++ dumpsStr k ++ ':' :: ' ' ::
      pdumpsVal ind v) ++ pdumpsMembers ind ms

end

/-- `json.dumps(v, indent=4)` as a Lean string. -/
def pdumps (v : Json) : String := ⟨pdumpsVal 0 v⟩

/-! ## `json.loads`

A recursive-descent parser over the model.  Like `json.loads` it skips the
four JSON whitespace characters between tokens, decodes the escape sequences
(including surrogate pairs) and accepts both hexadecimal digit cases.  In
line with the integer-only number model it consumes plain integer literals;
the envelopes and claims under study never contain floats.  Lone surrogate
escapes are rejected (Lean strings cannot hold them; `json.dumps` of a
well-formed string never produces them). -/

/-- Drop leading JSON whitespace. -/
def skipWs : List Char → List Char
  | [] => []
  | c :: cs => if isJsonWs c then skipWs cs else c :: cs

/-- Value of one hexadecimal digit, either case. -/
def hexVal (c : Char) : Option Nat :=
  if 48 ≤ c.toNat && c.toNat ≤ 57 then some (c.toNat - 48)
  else if 97 ≤ c.toNat && c.toNat ≤ 102 then some (c.toNat - 87)
  else if 65 ≤ c.toNat && c.toNat ≤ 70 then some (c.toNat - 55)
  else none

/-- Value of a four-digit hexadecimal escape. -/
def hex4Val (a b c d : Char) : Option Nat :=
  (hexVal a).bind fun x => (hexVal b).bind fun y => (hexVal c).bind fun z =>
    (hexVal d).map fun w => x * 4096 + y * 256 + z * 16 + w

/-- The decoded character of the eight short escape sequences. -/
def escShortInv : Char → Option Char
  | '"' => some '"'
  | '\\' => some '\\'
  | '/' => some '/'
  | 'b' => some '\x08'
  | 'f' => some '\x0c'
  | 'n' => some '\n'
  | 'r' => some '\r'
  | 't' => some '\t'
  | _ => none

mutual

/-- Parse a string body after the opening quote: returns the decoded
characters and the input remaining after the closing quote. -/
def parseStr : List Char → Option (List Char × List Char)
  | [] => none
  | c :: rest =>
    if c = '"' then some ([], rest)
    else if c = '\\' then parseEsc rest
    else (parseStr rest).map fun p => (c :: p.1, p.2)

/-- Parse the escape sequence after a backslash. -/
def parseEsc : List Char → Option (List Char × List Char)
  | [] => none
  | e :: rest2 =>
    if e = 'u' then parseUnicodeEsc rest2
    else
      match escShortInv e with
      | some ch => (parseStr rest2).map fun p => (ch :: p.1, p.2)
      | none => none

/-- Parse the four hex digits of a `\uXXXX` escape, continuing into a
surrogate pair when they denote a high surrogate. -/
def parseUnicodeEsc : List Char → Option (List Char × List Char)
  | a :: b :: c2 :: d :: rest3 =>
    (hex4Val a b c2 d).bind fun n =>
      if n < 0xd800 || 0xe000 ≤ n then
        (parseStr rest3).map fun p => (Char.ofNat n :: p.1, p.2)
      else if n ≤ 0xdbff then parseLowSurrogate n rest3
      else none
  | _ => none

/-- Parse the low half of a surrogate pair and combine it with the high
half `n`. -/
def parseLowSurrogate (n : Nat) : List Char → Option (List Char × List Char)
  | '\\' :: 'u' :: a2 :: b2 :: c3 :: d2 :: rest4 =>
    (hex4Val a2 b2 c3 d2).bind fun m =>
      if 0xdc00 ≤ m && m ≤ 0xdfff then
        (parseStr rest4).map fun p =>
          (Char.ofNat (0x10000 + (n - 0xd800) * 0x400 + (m - 0xdc00)) :: p.1, p.2)
      else none
  | _ => none

end

/-- Greedily consume decimal digits, accumulating their value. -/
def parseDigits : List Char → Nat → Nat × List Char
  | [], acc => (acc, [])
  | c :: cs, acc =>
    if isDecDigit c then parseDigits cs (acc * 10 + (c.toNat - 48))
    else (acc, c :: cs)

/-- Parse a nonempty run of decimal digits. -/
def parseNum : List Char → Option (Nat × List Char)
  | [] => none
  | c :: cs => if isDecDigit c then some (parseDigits (c :: cs) 0) else none

mutual

/-- Parse one JSON value; `fuel` bounds the nesting work and is always
sufficient when it exceeds the input length. -/
def parseVal : Nat → List Char → Option (Json × List Char)
  | 0, _ => none
  | fuel + 1, cs =>
    let r := skipWs cs
    if r.head?.elim false isDecDigit then
      (parseNum r).map fun p => (.num (p.1 : Int), p.2)
    else
      match r with
      | 'n' :: 'u' :: 'l' :: 'l' :: t => some (.null, t)
      | 't' :: 'r' :: 'u' :: 'e' :: t => some (.bool true, t)
      | 'f' :: 'a' :: 'l' :: 's' :: 'e' :: t => some (.bool false, t)
      | '-' :: t => (parseNum t).map fun p => (.num (-(p.1 : Int)), p.2)
      | '"' :: t => (parseStr t).map fun p => (.str ⟨p.1⟩, p.2)
      | '[' :: t =>
        let t2 := skipWs t
        if t2.head? = some ']' then some (.arr [], t2.tail)
        else (parseElems fuel t2).map fun p => (.arr p.1, p.2)
      | '{' :: t =>
        let t2 := skipWs t
        if t2.head? = some '}' then some (.obj [], t2.tail)
        else (parseMembers fuel t2).map fun p => (.obj p.1, p.2)
      | _ => none

/-- Parse one or more comma-separated array elements and the closing `]`. -/
def parseElems : Nat → List Char → Option (List Json × List Char)
  | 0, _ => none
  | fuel + 1, cs =>
    (parseVal fuel cs).bind fun vp =>
      match skipWs vp.2 with
      | ',' :: r2 => (parseElems fuel r2).map fun p => (vp.1 :: p.1, p.2)
      | ']' :: r2 => some ([vp.1], r2)
      | _ => none

/-- Parse one or more comma-separated object members and the closing `}`. -/
def parseMembers : Nat → List Char → Option (List (String × Json) × List Char)
  | 0, _ => none
  | fuel + 1, cs =>
    match skipWs cs with
    | '"' :: r =>
      (parseStr r).bind fun kp =>
        match skipWs kp.2 with
        | ':' :: r2 =>
          (parseVal fuel r2).bind fun vp =>
            match skipWs vp.2 with
            | ',' :: r4 => (parseMembers fuel r4).map fun p => ((⟨kp.1⟩, vp.1) :: p.1, p.2)
            | '}' :: r4 => some ([(⟨kp.1⟩, vp.1)], r4)
            | _ => none
        | _ => none
    | _ => none

end

/-- `json.loads`: parse a complete document, allowing trailing whitespace
only. -/
def loads (s : String) : Option Json :=
  match parseVal (s.data.length + 1) s.data with
  | some (v, rest) => if skipWs rest = [] then some v else none
  | none => none

/-! ## Round trip: strings -/

theorem hexVal_digitChar : ∀ k, k < 16 → hexVal (Nat.digitChar k) = some k := by decide

theorem isDecDigit_digitChar : ∀ k, k < 10 → isDecDigit (Nat.digitChar k) = true := by decide

/-- Unicode scalar values avoid the surrogate range. -/
theorem char_valid_ranges (c : Char) :
    c.toNat < 0xd800 ∨ (0xdfff < c.toNat ∧ c.toNat < 0x110000) := c.valid

theorem parseStr_quote (t : List Char) : parseStr ('"' :: t) = some ([], t) := by
  rw [parseStr, if_pos rfl]

theorem parseStr_lit {c : Char} (h1 : ¬ c = '"') (h2 : ¬ c = '\\') (t : List Char) :
    parseStr (c :: t) = (parseStr t).map fun p => (c :: p.1, p.2) := by
  rw [parseStr, if_neg h1, if_neg h2]

theorem parseStr_short {e ch : Char} (h : escShortInv e = some ch) (hu : ¬ e = 'u')
    (t : List Char) :
    parseStr ('\\' :: e :: t) = (parseStr t).map fun p => (ch :: p.1, p.2) := by
  rw [parseStr, if_neg (by decide), if_pos rfl, parseEsc, if_neg hu, h]

theorem parseStr_uBMP (a b c d : Char) (n : Nat) (rest : List Char)
    (h : hex4Val a b c d = some n)
    (hc : (decide (n < 0xd800) || decide (0xe000 ≤ n)) = true) :
    parseStr ('\\' :: 'u' :: a :: b :: c :: d :: rest) =
      (parseStr rest).map fun p => (Char.ofNat n :: p.1, p.2) := by
  rw [parseStr, if_neg (by decide), if_pos rfl, parseEsc, if_pos rfl,
    parseUnicodeEsc, h, Option.some_bind, if_pos hc]

theorem parseStr_uPair (a b c d a2 b2 c2 d2 : Char) (n m : Nat) (rest : List Char)
    (h : hex4Val a b c d = some n) (h2 : hex4Val a2 b2 c2 d2 = some m)
    (hc1 : (decide (n < 0xd800) || decide (0xe000 ≤ n)) = false)
    (hc2 : n ≤ 0xdbff)
    (hc3 : (decide (0xdc00 ≤ m) && decide (m ≤ 0xdfff)) = true) :
    parseStr ('\\' :: 'u' :: a :: b :: c :: d :: '\\' :: 'u' :: a2 :: b2 :: c2 :: d2 :: rest) =
      (parseStr rest).map fun p =>
        (Char.ofNat (0x10000 + (n - 0xd800) * 0x400 + (m - 0xdc00)) :: p.1, p.2) := by
  rw [parseStr, if_neg (by decide), if_pos rfl, parseEsc, if_pos rfl,
    parseUnicodeEsc, h, Option.some_bind, if_neg (by simp [hc1]), if_pos hc2,
    parseLowSurrogate, h2, Option.some_bind, if_pos hc3]

/-- `hex4` really renders its value: reading the four digits back gives `N`. -/
theorem hex4Val_digits (N : Nat) (hN : N < 0x10000) :
    hex4Val (Nat.digitChar (N / 4096 % 16)) (Nat.digitChar (N / 256 % 16))
      (Nat.digitChar (N / 16 % 16)) (Nat.digitChar (N % 16)) = some N := by
  have h1 : N / 4096 % 16 < 16 := Nat.mod_lt _ (by omega)
  have h2 : N / 256 % 16 < 16 := Nat.mod_lt _ (by omega)
  have h3 : N / 16 % 16 < 16 := Nat.mod_lt _ (by omega)
  have h4 : N % 16 < 16 := Nat.mod_lt _ (by omega)
  rw [hex4Val, hexVal_digitChar _ h1, hexVal_digitChar _ h2, hexVal_digitChar _ h3,
    hexVal_digitChar _ h4]
  simp only [Option.some_bind, Option.map_some', Option.some.injEq]
  have e2 : N / 256 = N / 16 / 16 := by
    rw [Nat.div_div_eq_div_mul]
  have e3 : N / 4096 = N / 16 / 16 / 16 := by
    rw [Nat.div_div_eq_div_mul, Nat.div_div_eq_div_mul]
  rw [e2, e3]
  clear e2 e3 h1 h2 h3 h4
  omega

theorem parseStr_uBMP4 (N : Nat) (hN : N < 0x10000)
    (hcond : (decide (N < 0xd800) || decide (0xe000 ≤ N)) = true) (rest : List Char) :
    parseStr ('\\' :: 'u' :: (hex4 N ++ rest)) =
      (parseStr rest).map fun p => (Char.ofNat N :: p.1, p.2) := by
  rw [show hex4 N ++ rest = Nat.digitChar (N / 4096 % 16) :: Nat.digitChar (N / 256 % 16)
    :: Nat.digitChar (N / 16 % 16) :: Nat.digitChar (N % 16) :: rest from rfl]
  exact parseStr_uBMP _ _ _ _ _ _ (hex4Val_digits N hN) hcond

theorem parseStr_uPair4 (N M : Nat) (hN : N < 0x10000) (hM : M < 0x10000)
    (hc1 : (decide (N < 0xd800) || decide (0xe000 ≤ N)) = false) (hc2 : N ≤ 0xdbff)
    (hc3 : (decide (0xdc00 ≤ M) && decide (M ≤ 0xdfff)) = true) (rest : List Char) :
    parseStr ('\\' :: 'u' :: (hex4 N ++ ('\\' :: 'u' :: (hex4 M ++ rest)))) =
      (parseStr rest).map fun p =>
        (Char.ofNat (0x10000 + (N - 0xd800) * 0x400 + (M - 0xdc00)) :: p.1, p.2) := by
  rw [show hex4 N ++ ('\\' :: 'u' :: (hex4 M ++ rest))
      = Nat.digitChar (N / 4096 % 16) :: Nat.digitChar (N / 256 % 16)
        :: Nat.digitChar (N / 16 % 16) :: Nat.digitChar (N % 16)
        :: '\\' :: 'u' :: Nat.digitChar (M / 4096 % 16) :: Nat.digitChar (M / 256 % 16)
        :: Nat.digitChar (M / 16 % 16) :: Nat.digitChar (M % 16) :: rest from rfl]
  exact parseStr_uPair _ _ _ _ _ _ _ _ _ _ _
    (hex4Val_digits N hN) (hex4Val_digits M hM) hc1 hc2 hc3

/-- The parser undoes the escaping of a single character. -/
theorem parseStr_escChar (c : Char) (t : List Char) :
    parseStr (escChar c ++ t) = (parseStr t).map fun p => (c :: p.1, p.2) := by
  by_cases hq : c = '"'
  · subst hq
    rw [show escChar '"' ++ t = '\\' :: '"' :: t from rfl]
    exact parseStr_short (show escShortInv '"' = some '"' from rfl) (by decide) t
  by_cases hbs : c = '\\'
  · subst hbs
    rw [show escChar '\\' ++ t = '\\' :: '\\' :: t from rfl]
    exact parseStr_short (show escShortInv '\\' = some '\\' from rfl) (by decide) t
  by_cases hpr : (0x20 ≤ c.toNat && c.toNat ≤ 0x7e) = true
  · rw [show escChar c = [c] from by simp [escChar, hq, hbs, hpr]]
    exact parseStr_lit hq hbs t
  by_cases h08 : c = '\x08'
  · subst h08
    rw [show escChar '\x08' ++ t = '\\' :: 'b' :: t from rfl]
    exact parseStr_short (show escShortInv 'b' = some '\x08' from rfl) (by decide) t
  by_cases h09 : c = '\t'
  · subst h09
    rw [show escChar '\t' ++ t = '\\' :: 't' :: t from rfl]
    exact parseStr_short (show escShortInv 't' = some '\t' from rfl) (by decide) t
  by_cases h0a : c = '\n'
  · subst h0a
    rw [show escChar '\n' ++ t = '\\' :: 'n' :: t from rfl]
    exact parseStr_short (show escShortInv 'n' = some '\n' from rfl) (by decide) t
  by_cases h0c : c = '\x0c'
  · subst h0c
    rw [show escChar '\x0c' ++ t = '\\' :: 'f' :: t from rfl]
    exact parseStr_short (show escShortInv 'f' = some '\x0c' from rfl) (by decide) t
  by_cases h0d : c = '\r'
  · subst h0d
    rw [show escChar '\r' ++ t = '\\' :: 'r' :: t from rfl]
    exact parseStr_short (show escShortInv 'r' = some '\r' from rfl) (by decide) t
  by_cases hbmp : c.toNat < 0x10000
  · have hval := char_valid_ranges c
    have hcond : (decide (c.toNat < 0xd800) || decide (0xe000 ≤ c.toNat)) = true := by
      simp only [Bool.or_eq_true, decide_eq_true_eq]
      omega
    rw [show escChar c ++ t = '\\' :: 'u' :: (hex4 c.toNat ++ t) from by
      simp [escChar, hq, hbs, hpr, h08, h09, h0a, h0c, h0d, hbmp]]
    rw [parseStr_uBMP4 c.toNat hbmp hcond, Char.ofNat_toNat]
  · have hval := char_valid_ranges c
    have hhi : 0xd800 + (c.toNat - 0x10000) / 0x400 < 0x10000 := by omega
    have hlo : 0xdc00 + (c.toNat - 0x10000) % 0x400 < 0x10000 := by
      have : (c.toNat - 0x10000) % 0x400 < 0x400 := by omega
      omega
    have hc1 : (decide (0xd800 + (c.toNat - 0x10000) / 0x400 < 0xd800) ||
        decide (0xe000 ≤ 0xd800 + (c.toNat - 0x10000) / 0x400)) = false := by
      simp only [Bool.or_eq_false_iff, decide_eq_false_iff_not]
      omega
    have hc2 : 0xd800 + (c.toNat - 0x10000) / 0x400 ≤ 0xdbff := by omega
    have hc3 : (decide (0xdc00 ≤ 0xdc00 + (c.toNat - 0x10000) % 0x400) &&
        decide (0xdc00 + (c.toNat - 0x10000) % 0x400 ≤ 0xdfff)) = true := by
      simp only [Bool.and_eq_true, decide_eq_true_eq]
      have : (c.toNat - 0x10000) % 0x400 < 0x400 := by omega
      omega
    have hchar : 0x10000 + (0xd800 + (c.toNat - 0x10000) / 0x400 - 0xd800) * 0x400 +
        (0xdc00 + (c.toNat - 0x10000) % 0x400 - 0xdc00) = c.toNat := by
      have := Nat.div_add_mod (c.toNat - 0x10000) 0x400
      omega
    rw [show escChar c ++ t = '\\' :: 'u' :: (hex4 (0xd800 + (c.toNat - 0x10000) / 0x400) ++
        ('\\' :: 'u' :: (hex4 (0xdc00 + (c.toNat - 0x10000) % 0x400) ++ t))) from by
      simp [escChar, hq, hbs, hpr, h08, h09, h0a, h0c, h0d, hbmp]]
    rw [parseStr_uPair4 _ _ hhi hlo hc1 hc2 hc3, hchar, Char.ofNat_toNat]

/-- The parser undoes the escaping of a whole string body and stops at the
closing quote, leaving the suffix untouched. -/
theorem parseStr_escape : ∀ (s : List Char) (rest : List Char),
    parseStr (escape s ++ '"' :: rest) = some (s, rest)
  | [], rest => by
    rw [show escape [] ++ '"' :: rest = '"' :: rest from rfl, parseStr_quote]
  | c :: cs, rest => by
    rw [show escape (c :: cs) = escChar c ++ escape cs from rfl, List.append_assoc,
      parseStr_escChar, parseStr_escape cs rest]
    rfl

/-! ## Round trip: numbers -/

/-- Does the input start with a decimal digit?  (What the parser's greedy
number run stops on.) -/
def leadDigit : List Char → Bool
  | [] => false
  | c :: _ => isDecDigit c

theorem digitChar_dec : ∀ k, k < 10 → isDecDigit (Nat.digitChar k) = true := by decide

theorem digitChar_toNat : ∀ k, k < 10 → (Nat.digitChar k).toNat - 48 = k := by decide

theorem natDigits_dec (n : Nat) : ∀ c ∈ natDigits 10 n, isDecDigit c = true := by
  intro c hc
  obtain ⟨k, hk, rfl⟩ := natDigits_chars 10 (by norm_num) n c hc
  exact digitChar_dec k hk

theorem parseDigits_run : ∀ (ds rest : List Char) (a : Nat),
    (∀ c ∈ ds, isDecDigit c = true) → leadDigit rest = false →
    parseDigits (ds ++ rest) a
      = (ds.foldl (fun acc c => acc * 10 + (c.toNat - 48)) a, rest)
  | [], rest, a, _, hrest => by
    cases rest with
    | nil => simp [parseDigits]
    | cons c cs =>
      have : isDecDigit c = false := hrest
      simp [parseDigits, this]
  | d :: ds, rest, a, hds, hrest => by
    have hd : isDecDigit d = true := hds d (by simp)
    rw [List.cons_append, parseDigits, if_pos hd,
      parseDigits_run ds rest _ (fun c hc => hds c (by simp [hc])) hrest]
    rfl

theorem natDigits_foldl (n : Nat) : ∀ (a : Nat),
    (natDigits 10 n).foldl (fun acc c => acc * 10 + (c.toNat - 48)) a
      = a * 10 ^ (natDigits 10 n).length + n := by
  induction n using Nat.strong_induction_on with
  | _ n ih =>
    intro a
    by_cases h : n < 10
    · rw [natDigits_small h]
      simp [List.foldl, digitChar_toNat n h]
    · rw [natDigits_step (by norm_num) (Nat.not_lt.mp h), List.foldl_append,
        ih (n / 10) (Nat.div_lt_self (by omega) (by omega))]
      have hd : (Nat.digitChar (n % 10)).toNat - 48 = n % 10 :=
        digitChar_toNat _ (Nat.mod_lt _ (by omega))
      simp only [List.foldl_cons, List.foldl_nil, List.length_append,
        List.length_singleton, hd]
      have hdm : n / 10 * 10 + n % 10 = n := by omega
      calc (a * 10 ^ (natDigits 10 (n / 10)).length + n / 10) * 10 + n % 10
          = a * (10 ^ (natDigits 10 (n / 10)).length * 10) + (n / 10 * 10 + n % 10) := by ring
        _ = a * 10 ^ ((natDigits 10 (n / 10)).length + 1) + n := by rw [hdm, pow_succ]

/-- The parser undoes the decimal rendering of a natural number, stopping
exactly at the first non-digit. -/
theorem parseNum_natDigits (n : Nat) (rest : List Char) (hrest : leadDigit rest = false) :
    parseNum (natDigits 10 n ++ rest) = some (n, rest) := by
  obtain ⟨k, t, hk, hrepr⟩ := natDigits_head 10 (by norm_num) n
  have hrun := parseDigits_run (natDigits 10 n) rest 0 (natDigits_dec n) hrest
  rw [natDigits_foldl n 0] at hrun
  simp only [Nat.zero_mul, Nat.zero_add] at hrun
  rw [hrepr] at hrun ⊢
  rw [List.cons_append, parseNum, if_pos (digitChar_dec k hk), ← List.cons_append, hrun]

/-! ## Round trip: whole documents -/

theorem skipWs_cons_not {c : Char} (h : isJsonWs c = false) (cs : List Char) :
    skipWs (c :: cs) = c :: cs := by
  rw [skipWs, if_neg (by simp [h])]

theorem skipWs_cons_ws {c : Char} (h : isJsonWs c = true) (cs : List Char) :
    skipWs (c :: cs) = skipWs cs := by
  rw [skipWs, if_pos h]

mutual

/-- Fuel needed by `parseVal` to parse the rendering of `v`. -/
def jsizeVal : Json → Nat
  | .null => 1
  | .bool _ => 1
  | .num _ => 1
  | .str _ => 1
  | .arr l => 1 + jsizeElems l
  | .obj l => 1 + jsizeMembers l

/-- Fuel needed by `parseElems` for these elements. -/
def jsizeElems : List Json → Nat
  | [] => 0
  | x :: xs => 1 + jsizeVal x + jsizeElems xs

/-- Fuel needed by `parseMembers` for these members. -/
def jsizeMembers : List (String × Json) → Nat
  | [] => 0
  | (_, v) :: ms => 1 + jsizeVal v + jsizeMembers ms

end

theorem jsizeVal_pos (v : Json) : 1 ≤ jsizeVal v := by
  cases v <;> simp [jsizeVal]

/-- Characters that may legally begin a serialized value: not JSON
whitespace, and closing neither kind of bracket. -/
def headOk (c : Char) : Bool :=
  !(isJsonWs c) && !(c == ']') && !(c == '}')

theorem headOk_split {c : Char} (h : headOk c = true) :
    isJsonWs c = false ∧ ¬ c = ']' ∧ ¬ c = '}' := by
  simp only [headOk, Bool.and_eq_true, Bool.not_eq_true', beq_eq_false_iff_ne, ne_eq] at h
  exact ⟨h.1.1, h.1.2, h.2⟩

theorem digitChar_headOk : ∀ k, k < 10 → headOk (Nat.digitChar k) = true := by decide

/-- Every serialized value starts with a `headOk` character, so leading
whitespace skipping and the empty-container tests never fire on it. -/
theorem dumpsVal_head : ∀ v : Json, ∃ c t, dumpsVal v = c :: t ∧ headOk c = true
  | .null => ⟨'n', "ull".data, rfl, rfl⟩
  | .bool true => ⟨'t', "rue".data, rfl, rfl⟩
  | .bool false => ⟨'f', "alse".data, rfl, rfl⟩
  | .str s => ⟨'"', escape s.data ++ ['"'], rfl, rfl⟩
  | .arr [] => ⟨'[', "]".data, rfl, rfl⟩
  | .arr (x :: xs) => ⟨'[', (dumpsVal x ++ dumpsElems xs) ++ [']'], rfl, rfl⟩
  | .obj [] => ⟨'{', "\x7d".data, rfl, rfl⟩
  | .obj ((k, v) :: ms) =>
    ⟨'{', (dumpsStr k ++ ':' :: ' ' :: dumpsVal v ++ dumpsMembers ms) ++ ['}'], rfl, rfl⟩
  | .num n => by
    rw [show dumpsVal (.num n) = dumpsInt n from rfl, dumpsInt]
    split_ifs with hneg
    · exact ⟨'-', natDigits 10 n.natAbs, rfl, rfl⟩
    · obtain ⟨k, t, hk, hrepr⟩ := natDigits_head 10 (by norm_num) n.natAbs
      exact ⟨Nat.digitChar k, t, hrepr, digitChar_headOk k hk⟩

theorem skipWs_dumps (v : Json) (r : List Char) :
    skipWs (dumpsVal v ++ r) = dumpsVal v ++ r := by
  obtain ⟨c, t, heq, hc⟩ := dumpsVal_head v
  rw [heq, List.cons_append, skipWs_cons_not (headOk_split hc).1]

theorem dumps_head_ne_rbrack (v : Json) (r : List Char) :
    ¬ (dumpsVal v ++ r).head? = some ']' := by
  obtain ⟨c, t, heq, hc⟩ := dumpsVal_head v
  rw [heq]
  simpa using (headOk_split hc).2.1

theorem dumps_head_ne_rbrace (v : Json) (r : List Char) :
    ¬ (dumpsVal v ++ r).head? = some '}' := by
  obtain ⟨c, t, heq, hc⟩ := dumpsVal_head v
  rw [heq]
  simpa using (headOk_split hc).2.2

theorem leadDigit_dumpsElems (xs : List Json) (r : List Char) :
    leadDigit (dumpsElems xs ++ ']' :: r) = false := by
  cases xs with
  | nil => rfl
  | cons y ys => simp [dumpsElems, leadDigit]; decide

theorem leadDigit_dumpsMembers (ms : List (String × Json)) (r : List Char) :
    leadDigit (dumpsMembers ms ++ '}' :: r) = false := by
  rcases ms with _ | ⟨⟨k, v⟩, ms2⟩
  · rfl
  · simp [dumpsMembers, leadDigit]; decide

theorem isDecDigit_not_ws {c : Char} (h : isDecDigit c = true) : isJsonWs c = false := by
  have h1 : ¬ c = ' ' := by rintro rfl; revert h; decide
  have h2 : ¬ c = '\t' := by rintro rfl; revert h; decide
  have h3 : ¬ c = '\n' := by rintro rfl; revert h; decide
  have h4 : ¬ c = '\r' := by rintro rfl; revert h; decide
  simp [isJsonWs, h1, h2, h3, h4]

theorem headElim_cons (c : Char) (t : List Char) :
    ((c :: t).head?.elim false isDecDigit) = isDecDigit c := rfl

theorem parseVal_null (G : Nat) (t : List Char) :
    parseVal (G + 1) ('n' :: 'u' :: 'l' :: 'l' :: t) = some (.null, t) := rfl

theorem parseVal_true (G : Nat) (t : List Char) :
    parseVal (G + 1) ('t' :: 'r' :: 'u' :: 'e' :: t) = some (.bool true, t) := rfl

theorem parseVal_false (G : Nat) (t : List Char) :
    parseVal (G + 1) ('f' :: 'a' :: 'l' :: 's' :: 'e' :: t) = some (.bool false, t) := rfl

theorem parseVal_minus (G : Nat) (t : List Char) :
    parseVal (G + 1) ('-' :: t)
      = (parseNum t).map fun p => (Json.num (-(p.1 : Int)), p.2) := rfl

theorem parseVal_strArm (G : Nat) (t : List Char) :
    parseVal (G + 1) ('"' :: t)
      = (parseStr t).map fun p => (Json.str ⟨p.1⟩, p.2) := rfl

theorem parseVal_lbrack (G : Nat) (t : List Char) :
    parseVal (G + 1) ('[' :: t)
      = if (skipWs t).head? = some ']' then some (.arr [], (skipWs t).tail)
        else (parseElems G (skipWs t)).map fun p => (.arr p.1, p.2) := rfl

theorem parseVal_lbrace (G : Nat) (t : List Char) :
    parseVal (G + 1) ('{' :: t)
      = if (skipWs t).head? = some '}' then some (.obj [], (skipWs t).tail)
        else (parseMembers G (skipWs t)).map fun p => (.obj p.1, p.2) := rfl

theorem parseVal_digit (G : Nat) {c : Char} (hd : isDecDigit c = true) (t : List Char) :
    parseVal (G + 1) (c :: t)
      = (parseNum (c :: t)).map fun p => (Json.num (p.1 : Int), p.2) := by
  rw [parseVal]
  rw [show skipWs (c :: t) = c :: t from skipWs_cons_not (isDecDigit_not_ws hd) t]
  rw [headElim_cons, hd]
  rfl

theorem parseVal_ws (F : Nat) (cs : List Char) :
    parseVal F (' ' :: cs) = parseVal F cs := by
  cases F with
  | zero => rfl
  | succ G =>
    rw [parseVal, parseVal, skipWs_cons_ws (by decide)]

theorem parseElems_ws (F : Nat) (cs : List Char) :
    parseElems F (' ' :: cs) = parseElems F cs := by
  cases F with
  | zero => rfl
  | succ G => rw [parseElems, parseElems, parseVal_ws]

theorem parseMembers_ws (F : Nat) (cs : List Char) :
    parseMembers F (' ' :: cs) = parseMembers F cs := by
  cases F with
  | zero => rfl
  | succ G => rw [parseMembers, parseMembers, skipWs_cons_ws (by decide)]

theorem skipWs_dumpsStr (k : String) (r : List Char) :
    skipWs (dumpsStr k ++ r) = dumpsStr k ++ r := by
  rw [show dumpsStr k ++ r = '"' :: (escape k.data ++ ('"' :: r)) from by simp [dumpsStr]]
  exact skipWs_cons_not (by decide) _

theorem dumpsStr_head_ne_rbrace (k : String) (r : List Char) :
    ¬ (dumpsStr k ++ r).head? = some '}' := by
  rw [dumpsStr]
  simp

/-- Parsing inverts serialization: with enough fuel, `parseVal` consumes
exactly the rendering of `v` and returns `v`, and the element and member
parsers likewise consume renderings up to the closing bracket.  The suffix
may be anything that does not start with a digit (so that a number's digit
run is not extended). -/
theorem parse_dumps_master : ∀ F : Nat,
    (∀ (v : Json) (rest : List Char), jsizeVal v ≤ F → leadDigit rest = false →
      parseVal F (dumpsVal v ++ rest) = some (v, rest)) ∧
    (∀ (x : Json) (xs : List Json) (rest : List Char), jsizeElems (x :: xs) ≤ F →
      parseElems F (dumpsVal x ++ (dumpsElems xs ++ (']' :: rest))) = some (x :: xs, rest)) ∧
    (∀ (k : String) (v : Json) (ms : List (String × Json)) (rest : List Char),
      jsizeMembers ((k, v) :: ms) ≤ F →
      parseMembers F
        (dumpsStr k ++ (':' :: ' ' :: (dumpsVal v ++ (dumpsMembers ms ++ ('}' :: rest)))))
        = some ((k, v) :: ms, rest)) := by
  intro F
  induction F using Nat.strong_induction_on with
  | _ F IH =>
    rcases F with _ | G
    · refine ⟨?_, ?_, ?_⟩
      · intro v rest hsize _
        have := jsizeVal_pos v
        omega
      · intro x xs rest hsize
        rw [jsizeElems] at hsize
        omega
      · intro k v ms rest hsize
        rw [jsizeMembers] at hsize
        omega
    · obtain ⟨P_ih, Q_ih, R_ih⟩ := IH G (Nat.lt_succ_self G)
      refine ⟨?_, ?_, ?_⟩
      · -- one value
        intro v rest hsize hlead
        cases v with
        | null =>
          rw [show dumpsVal .null ++ rest = 'n' :: 'u' :: 'l' :: 'l' :: rest from rfl,
            parseVal_null]
        | bool b =>
          cases b with
          | true =>
            rw [show dumpsVal (.bool true) ++ rest = 't' :: 'r' :: 'u' :: 'e' :: rest from rfl,
              parseVal_true]
          | false =>
            rw [show dumpsVal (.bool false) ++ rest
                = 'f' :: 'a' :: 'l' :: 's' :: 'e' :: rest from rfl, parseVal_false]
        | num n =>
          by_cases hneg : n < 0
          · rw [show dumpsVal (.num n) ++ rest = '-' :: (natDigits 10 n.natAbs ++ rest) from by
              simp [dumpsVal, dumpsInt, hneg]]
            rw [parseVal_minus, parseNum_natDigits _ _ hlead]
            simp only [Option.map_some']
            have hcast : -((n.natAbs : Int)) = n := by omega
            rw [hcast]
          · obtain ⟨k, t, hk, hrepr⟩ := natDigits_head 10 (by norm_num) n.natAbs
            rw [show dumpsVal (.num n) ++ rest = natDigits 10 n.natAbs ++ rest from by
              simp [dumpsVal, dumpsInt, hneg]]
            rw [hrepr, List.cons_append, parseVal_digit G (digitChar_dec k hk),
              ← List.cons_append, ← hrepr, parseNum_natDigits _ _ hlead]
            simp only [Option.map_some']
            have hcast : ((n.natAbs : Int)) = n := by omega
            rw [hcast]
        | str s =>
          rw [show dumpsVal (.str s) ++ rest = '"' :: (escape s.data ++ '"' :: rest) from by
            simp [dumpsVal, dumpsStr]]
          rw [parseVal_strArm, parseStr_escape]
          rfl
        | arr l =>
          cases l with
          | nil =>
            rw [show dumpsVal (.arr []) ++ rest = '[' :: (']' :: rest) from rfl,
              parseVal_lbrack, skipWs_cons_not (by decide)]
            simp
          | cons x xs =>
            rw [show dumpsVal (.arr (x :: xs)) ++ rest
                = '[' :: (dumpsVal x ++ (dumpsElems xs ++ (']' :: rest))) from by
              simp [dumpsVal]]
            rw [parseVal_lbrack, skipWs_dumps, if_neg (dumps_head_ne_rbrack x _)]
            rw [Q_ih x xs rest (by rw [jsizeVal] at hsize; omega)]
            rfl
        | obj l =>
          rcases l with _ | ⟨⟨k, v2⟩, ms⟩
          · rw [show dumpsVal (.obj []) ++ rest = '{' :: ('}' :: rest) from rfl,
              parseVal_lbrace, skipWs_cons_not (by decide)]
            simp
          · rw [show dumpsVal (.obj ((k, v2) :: ms)) ++ rest
                = '{' :: (dumpsStr k ++ (':' :: ' ' :: (dumpsVal v2 ++
                    (dumpsMembers ms ++ ('}' :: rest))))) from by
              simp [dumpsVal]]
            rw [parseVal_lbrace, skipWs_dumpsStr, if_neg (dumpsStr_head_ne_rbrace _ _)]
            rw [R_ih k v2 ms rest (by rw [jsizeVal] at hsize; omega)]
            rfl
      · -- one or more array elements
        intro x xs rest hsize
        rw [jsizeElems] at hsize
        rw [parseElems,
          P_ih x (dumpsElems xs ++ (']' :: rest))
            (by have := jsizeVal_pos x; omega) (leadDigit_dumpsElems xs rest),
          Option.some_bind]
        cases xs with
        | nil =>
          show (match skipWs (dumpsElems [] ++ (']' :: rest)) with
            | ',' :: r2 => (parseElems G r2).map fun p => (x :: p.1, p.2)
            | ']' :: r2 => some ([x], r2)
            | _ => none) = some ([x], rest)
          rw [show dumpsElems [] ++ (']' :: rest) = ']' :: rest from rfl,
            skipWs_cons_not (by decide)]
          rfl
        | cons y ys =>
          show (match skipWs (dumpsElems (y :: ys) ++ (']' :: rest)) with
            | ',' :: r2 => (parseElems G r2).map fun p => (x :: p.1, p.2)
            | ']' :: r2 => some ([x], r2)
            | _ => none) = some (x :: y :: ys, rest)
          rw [show dumpsElems (y :: ys) ++ (']' :: rest)
              = ',' :: ' ' :: (dumpsVal y ++ (dumpsElems ys ++ (']' :: rest))) from by
            simp [dumpsElems]]
          rw [skipWs_cons_not (by decide)]
          show (parseElems G (' ' :: (dumpsVal y ++ (dumpsElems ys ++ (']' :: rest))))).map
              (fun p => (x :: p.1, p.2)) = some (x :: y :: ys, rest)
          rw [parseElems_ws, Q_ih y ys rest (by rw [jsizeElems] at hsize ⊢; omega)]
          rfl
      · -- one or more object members
        intro k v ms rest hsize
        rw [jsizeMembers] at hsize
        rw [show dumpsStr k ++ (':' :: ' ' :: (dumpsVal v ++ (dumpsMembers ms ++ ('}' :: rest))))
            = '"' :: (escape k.data ++ '"' ::
                (':' :: ' ' :: (dumpsVal v ++ (dumpsMembers ms ++ ('}' :: rest))))) from by
          simp [dumpsStr]]
        rw [parseMembers, skipWs_cons_not (by decide)]
        show ((parseStr (escape k.data ++ '"' ::
            (':' :: ' ' :: (dumpsVal v ++ (dumpsMembers ms ++ ('}' :: rest)))))).bind fun kp =>
          match skipWs kp.2 with
          | ':' :: r2 =>
            (parseVal G r2).bind fun vp =>
              match skipWs vp.2 with
              | ',' :: r4 => (parseMembers G r4).map fun p => ((⟨kp.1⟩, vp.1) :: p.1, p.2)
              | '}' :: r4 => some ([(⟨kp.1⟩, vp.1)], r4)
              | _ => none
          | _ => none) = some ((k, v) :: ms, rest)
        rw [parseStr_escape, Option.some_bind]
        show (match skipWs (':' :: ' ' :: (dumpsVal v ++ (dumpsMembers ms ++ ('}' :: rest)))) with
          | ':' :: r2 =>
            (parseVal G r2).bind fun vp =>
              match skipWs vp.2 with
              | ',' :: r4 => (parseMembers G r4).map fun p => ((⟨k.data⟩, vp.1) :: p.1, p.2)
              | '}' :: r4 => some ([(⟨k.data⟩, vp.1)], r4)
              | _ => none
          | _ => none) = some ((k, v) :: ms, rest)
        rw [skipWs_cons_not (by decide)]
        show ((parseVal G (' ' :: (dumpsVal v ++ (dumpsMembers ms ++ ('}' :: rest))))).bind
          fun vp =>
            match skipWs vp.2 with
            | ',' :: r4 => (parseMembers G r4).map fun p => ((⟨k.data⟩, vp.1) :: p.1, p.2)
            | '}' :: r4 => some ([(⟨k.data⟩, vp.1)], r4)
            | _ => none) = some ((k, v) :: ms, rest)
        rw [parseVal_ws,
          P_ih v (dumpsMembers ms ++ ('}' :: rest))
            (by have := jsizeVal_pos v; omega) (leadDigit_dumpsMembers ms rest),
          Option.some_bind]
        rcases ms with _ | ⟨⟨k2, v2⟩, ms2⟩
        · show (match skipWs (dumpsMembers [] ++ ('}' :: rest)) with
            | ',' :: r4 => (parseMembers G r4).map fun p => ((⟨k.data⟩, v) :: p.1, p.2)
            | '}' :: r4 => some ([(⟨k.data⟩, v)], r4)
            | _ => none) = some ([(k, v)], rest)
          rw [show dumpsMembers [] ++ ('}' :: rest) = '}' :: rest from rfl,
            skipWs_cons_not (by decide)]
          rfl
        · show (match skipWs (dumpsMembers ((k2, v2) :: ms2) ++ ('}' :: rest)) with
            | ',' :: r4 => (parseMembers G r4).map fun p => ((⟨k.data⟩, v) :: p.1, p.2)
            | '}' :: r4 => some ([(⟨k.data⟩, v)], r4)
            | _ => none) = some ((k, v) :: (k2, v2) :: ms2, rest)
          rw [show dumpsMembers ((k2, v2) :: ms2) ++ ('}' :: rest)
              = ',' :: ' ' :: (dumpsStr k2 ++ (':' :: ' ' :: (dumpsVal v2 ++
                  (dumpsMembers ms2 ++ ('}' :: rest))))) from by
            simp [dumpsMembers]]
          rw [skipWs_cons_not (by decide)]
          show (parseMembers G (' ' :: (dumpsStr k2 ++ (':' :: ' ' :: (dumpsVal v2 ++
              (dumpsMembers ms2 ++ ('}' :: rest))))))).map
              (fun p => ((⟨k.data⟩, v) :: p.1, p.2)) = some ((k, v) :: (k2, v2) :: ms2, rest)
          rw [parseMembers_ws, R_ih k2 v2 ms2 rest (by rw [jsizeMembers] at hsize ⊢; omega)]
          rfl

mutual

theorem jsizeVal_le_length : ∀ v : Json, jsizeVal v ≤ (dumpsVal v).length
  | .null => by simp [jsizeVal, dumpsVal]
  | .bool true => by simp [jsizeVal, dumpsVal]
  | .bool false => by simp [jsizeVal, dumpsVal]
  | .num n => by
    have hne : natDigits 10 n.natAbs ≠ [] := natDigits_ne_nil 10 n.natAbs (by norm_num)
    have hpos : 1 ≤ (natDigits 10 n.natAbs).length := by
      cases h : natDigits 10 n.natAbs with
      | nil => exact absurd h hne
      | cons a t => simp
    by_cases h : n < 0
    all_goals simp [jsizeVal, dumpsVal, dumpsInt, h]
    all_goals omega
  | .str s => by simp [jsizeVal, dumpsVal, dumpsStr]
  | .arr [] => by simp [jsizeVal, jsizeElems, dumpsVal]
  | .arr (x :: xs) => by
    have h1 := jsizeVal_le_length x
    have h2 := jsizeElems_le_length xs
    simp only [jsizeVal, jsizeElems, dumpsVal, List.length_append, List.length_cons]
    omega
  | .obj [] => by simp [jsizeVal, jsizeMembers, dumpsVal]
  | .obj ((k, v) :: ms) => by
    have h1 := jsizeVal_le_length v
    have h2 := jsizeMembers_le_length ms
    simp only [jsizeVal, jsizeMembers, dumpsVal, List.length_append, List.length_cons]
    omega

theorem jsizeElems_le_length : ∀ l : List Json, jsizeElems l ≤ (dumpsElems l).length
  | [] => by simp [jsizeElems, dumpsElems]
  | x :: xs => by
    have h1 := jsizeVal_le_length x
    have h2 := jsizeElems_le_length xs
    simp only [jsizeElems, dumpsElems, List.length_append, List.length_cons]
    omega

theorem jsizeMembers_le_length :
    ∀ l : List (String × Json), jsizeMembers l ≤ (dumpsMembers l).length
  | [] => by simp [jsizeMembers, dumpsMembers]
  | (k, v) :: ms => by
    have h1 := jsizeVal_le_length v
    have h2 := jsizeMembers_le_length ms
    simp only [jsizeMembers, dumpsMembers, List.length_append, List.length_cons]
    omega

end

/-- Serialization followed by parsing is the identity: the model of
`json.loads` recovers exactly the value that the model of `json.dumps`
rendered. -/
theorem loads_dumps (v : Json) : loads (dumps v) = some v := by
  have hlen : jsizeVal v ≤ (dumpsVal v).length + 1 :=
    le_trans (jsizeVal_le_length v) (by omega)
  have hP := (parse_dumps_master ((dumpsVal v).length + 1)).1 v [] hlen rfl
  rw [List.append_nil] at hP
  rw [loads, show (dumps v).data = dumpsVal v from rfl, hP]
  rfl

/-! ## The MSA SDK client (`msa_sdk/msa_api.py`) -/

/-- Modelled from the spec: the status token `constants.ENDED` (the
`constants` module is not part of the source tree; §3 of the specification
fixes the five status strings, required verbatim by the orchestrator). -/
def ENDED : String := "ENDED"

/-- Modelled from the spec: the status token `constants.FAILED`. -/
def FAILED : String := "FAILED"

/-- Modelled from the spec: the status token `constants.RUNNING`. -/
def RUNNING : String := "RUNNING"

/-- Modelled from the spec: the status token `constants.WARNING`. -/
def WARNING : String := "WARNING"

/-- Modelled from the spec: the status token `constants.PAUSED`. -/
def PAUSED : String := "PAUSED"

/-- Modelled from the spec: the ambient execution context (`msa_sdk.context`,
not part of the source tree): a process-wide key/value store supplying
`TOKEN` and persisting `TRACEID`/`SPANID` once created (§6 of the
specification).  Absent keys are `none`. -/
structure Context where
  token : String
  traceid : Option String
  spanid : Option String

/-- `host_port()`: hostname and port of the API. -/
def host_port : String × String := ("localhost", "8480")

/-- One HTTP response as the `requests` library presents it to this client:
the success flag `ok` (2xx), the raw body text, and what `.json()` yields —
`none` when the body is not JSON (the call would raise). -/
structure Response where
  ok : Bool
  text : String
  jsonBody : Option Json

/-- The mutable fields of an `MSA_API` instance; `contentRaw` is the
`_content` attribute.  `action` is carried separately as the argument of
`check_response` because the Order domain methods (`order.py`) assign it a
descriptive string such as `'Command execute'` before each call. -/
structure MSAState where
  url : String
  path : String
  token : String
  response : Option Response
  contentRaw : String
  log_response : Bool

/-- `MSA_API.__init__`: base URL from `host_port`, token from the ambient
context, empty path and content, no response yet. -/
def init_state (ctx : Context) : MSAState :=
  { url := "http://" ++ host_port.1 ++ ":" ++ host_port.2 ++ "/ubi-api-rest"
    path := ""
    token := ctx.token
    response := none
    contentRaw := ""
    log_response := true }

/-- The `content` property: the stored response text, or `'{}'` when no
text is stored (Python's falsiness of the empty string). -/
def content (st : MSAState) : String :=
  if st.contentRaw = "" then "{}" else st.contentRaw

/-- `del woToken['TOKEN']` on a deep copy: drop a `TOKEN` member of a
mapping; other values pass through (the claims only exercise mappings on
the logging path). -/
def removeTOKEN : Json → Json
  | .obj ms => .obj (ms.filter fun p => p.1 != "TOKEN")
  | j => j

/-- `MSA_API.process_content(status, comment, new_params, log_response)`:
returns the compact JSON envelope text, and the list of lines written to
the log sink (the pretty-printed sanitized copy when `log_response`). -/
def process_content (status comment : String) (new_params : Json)
    (log_response : Bool) : String × List String :=
  let response := Json.obj [("wo_status", .str status), ("wo_comment", .str comment),
    ("wo_newparams", new_params)]
  let logs := if log_response then [pdumps (removeTOKEN new_params)] else []
  (dumps response, logs)

/-- The observable effect of a task reporter: the single line printed to
standard output, the process exit code passed to `sys.exit`, and the log
lines. -/
structure TaskReport where
  stdout : String
  exitCode : Nat
  logs : List String

/-- `MSA_API.task_error`: print the FAILED envelope and exit with code 1. -/
def task_error (comment : String) (ctx : Json) (log_response : Bool) : TaskReport :=
  let r := process_content FAILED comment ctx log_response
  ⟨r.1, 1, r.2⟩

/-- `MSA_API.task_success`: print the ENDED envelope and exit with code 0. -/
def task_success (comment : String) (ctx : Json) (log_response : Bool) : TaskReport :=
  let r := process_content ENDED comment ctx log_response
  ⟨r.1, 0, r.2⟩

/-- The exceptions the embedded methods can raise. -/
inductive PyErr where
  | typeError
  | keyError
  | attributeError
  | jsonDecodeError

/-- Python subscripting `j['key']` for the model: a lookup in a mapping,
failure (an exception) otherwise. -/
def jlookup (j : Json) (key : String) : Option Json :=
  match j with
  | .obj ms => ms.lookup key
  | _ => none

/-- `MSA_API.check_response`: on a not-ok response, parse the body, read
its `message` field, and replace `_content` with
`process_content(FAILED, action, message)` — the action becomes the
comment and the message becomes the new-params slot.  On an ok response the
state is untouched.  The second component is the exception raised, if
any. -/
def check_response (action : String) (st : MSAState) : MSAState × Option PyErr :=
  match st.response with
  | none => (st, some .attributeError)
  | some r =>
    if r.ok then (st, none)
    else
      match r.jsonBody with
      | none => (st, some .jsonDecodeError)
      | some j =>
        match jlookup j "message" with
        | none => (st, some .keyError)
        | some msg =>
          ({ st with contentRaw := (process_content FAILED action msg false).1 }, none)

/-- `MSA_API.create_trace_id`: `'%032x' % rt` and `'%016x' % rs`, where the
source draws `rt` from `randrange(16**32)` and `rs` from
`randrange(6**23)`; the draws are passed in explicitly here. -/
def create_trace_id (rt rs : Nat) : String × String :=
  (⟨padZeroes 32 (natDigits 16 rt)⟩, ⟨padZeroes 16 (natDigits 16 rs)⟩)

/-- The creation guard of `add_trace_headers`: generate and store a pair
only when the context holds no `TRACEID`; both keys are (re)written in that
case. -/
def ensure_trace (rt rs : Nat) (ctx : Context) : Context :=
  if ctx.traceid = none then
    { ctx with traceid := some (create_trace_id rt rs).1,
               spanid := some (create_trace_id rt rs).2 }
  else ctx

/-- The three trace headers `add_trace_headers` sets. -/
structure TraceHeaders where
  traceparent : String
  b3TraceId : String
  b3SpanId : String

/-- `MSA_API.add_trace_headers`: run the creation guard, then render the
W3C `traceparent` header plus the legacy B3 mirrors from the context.
`none` models the `KeyError` when the context holds a `TRACEID` but no
`SPANID`. -/
def add_trace_headers (rt rs : Nat) (ctx : Context) : Option (Context × TraceHeaders) :=
  let ctx2 := ensure_trace rt rs ctx
  match ctx2.traceid, ctx2.spanid with
  | some t, some s => some (ctx2, ⟨"00-" ++ t ++ "-" ++ s ++ "-01", t, s⟩)
  | _, _ => none

/-- A sequence of calls to `add_trace_headers`, threading the ambient
context; returns the final context, the headers of every successful call,
and how many times a trace pair was generated.  A `KeyError` aborts the
run. -/
def runTrace : Context → List (Nat × Nat) → Context × List TraceHeaders × Nat
  | ctx, [] => (ctx, [], 0)
  | ctx, (rt, rs) :: rest =>
    match add_trace_headers rt rs ctx with
    | some (ctx2, h) =>
      let gen := if ctx.traceid = none then 1 else 0
      let next := runTrace ctx2 rest
      (next.1, h :: next.2.1, gen + next.2.2)
    | none => (ctx, [], 0)

/-- The run-time type of the `data` argument of `_call_post`, mirroring the
`isinstance(data, dict)` check: a Python dict, or one of the non-mapping
types a caller could pass. -/
inductive PostBody where
  | dict (members : List (String × Json))
  | pylist (elems : List Json)
  | pystr (s : String)
  | pyint (n : Int)
  | pybool (b : Bool)

/-- `isinstance(data, dict)`. -/
def PostBody.isDict : PostBody → Bool
  | .dict _ => true
  | _ => false

/-- Everything observable about one transport call: the client state after
the call, the threaded ambient context, how many HTTP requests were issued,
the serialized body handed to the transport (POST only), and the exception
raised, if any. -/
structure CallOutcome where
  state : MSAState
  ctx : Context
  httpCalls : Nat
  sentBody : Option String
  raised : Option PyErr

/-- `MSA_API._call_post`: build headers (running the trace guard), default
a missing body to `{}`, require a dict and serialize it — any other type
raises `TypeError` before `requests.post` runs — then issue the call, store
the raw text and classify via `check_response`.  `resp` is the transport's
answer to the request, used only when a request is actually issued. -/
def call_post (action : String) (body : Option PostBody) (resp : Response)
    (rt rs : Nat) (st : MSAState) (ctx : Context) : CallOutcome :=
  match add_trace_headers rt rs ctx with
  | none => ⟨st, ensure_trace rt rs ctx, 0, none, some .keyError⟩
  | some (ctx2, _hdrs) =>
    match body.getD (.dict []) with
    | .dict ms =>
      let st1 := { st with response := some resp, contentRaw := resp.text }
      let c := check_response action st1
      ⟨c.1, ctx2, 1, some (dumps (.obj ms)), c.2⟩
    | _ => ⟨st, ctx2, 0, none, some .typeError⟩

/-- `MSA_API._call_get`: build headers (running the trace guard), issue the
request, store the raw response text verbatim and classify via
`check_response`. -/
def call_get (action : String) (resp : Response) (rt rs : Nat)
    (st : MSAState) (ctx : Context) : CallOutcome :=
  match add_trace_headers rt rs ctx with
  | none => ⟨st, ensure_trace rt rs ctx, 0, none, some .keyError⟩
  | some (ctx2, _hdrs) =>
    let st1 := { st with response := some resp, contentRaw := resp.text }
    let c := check_response action st1
    ⟨c.1, ctx2, 1, none, c.2⟩

/-- Timeout passed to `requests.post` when `_call_post` is called without
one: the signature default `timeout=60`. -/
def post_default_timeout : Option Nat := some 60

/-- Timeout passed to `requests.get` when `_call_get` is called without
one: the signature default `timeout=60`. -/
def get_default_timeout : Option Nat := some 60

/-- Timeout passed to `requests.put` by `_call_put`: the call names no
`timeout` argument, so the transport default (no enforced timeout) is
used. -/
def put_request_timeout : Option Nat := none

/-- Timeout passed to `requests.delete` by `_call_delete`: likewise
absent. -/
def delete_request_timeout : Option Nat := none

/-- Distinct keys, the invariant a Python dict guarantees. -/
def nodupKeys : List String → Bool
  | [] => true
  | k :: ks => (!ks.contains k) && nodupKeys ks

mutual

/-- A `Json` value is the image of a Python object exactly when every
object node has distinct keys. -/
def jsonDictOk : Json → Bool
  | .null => true
  | .bool _ => true
  | .num _ => true
  | .str _ => true
  | .arr l => jsonListOk l
  | .obj l => nodupKeys (l.map Prod.fst) && jsonMembersOk l

/-- `jsonDictOk` on every element. -/
def jsonListOk : List Json → Bool
  | [] => true
  | x :: xs => jsonDictOk x && jsonListOk xs

/-- `jsonDictOk` on every member value. -/
def jsonMembersOk : List (String × Json) → Bool
  | [] => true
  | (_, v) :: ms => jsonDictOk v && jsonMembersOk ms

end

/-- Python's substring test `needle in hay`. -/
def strHasSub (needle : List Char) : List Char → Bool
  | [] => needle == []
  | c :: t => needle.isPrefixOf (c :: t) || strHasSub needle t

/-! ## Serialized envelopes are single lines of printable ASCII -/

/-- Printable ASCII, the alphabet of `json.dumps(..., ensure_ascii=True)`. -/
def printable (c : Char) : Prop := 32 ≤ c.toNat ∧ c.toNat ≤ 126

/-- Every character of the list is printable ASCII. -/
def printableAll (l : List Char) : Prop := ∀ c ∈ l, printable c

instance (c : Char) : Decidable (printable c) := by
  unfold printable
  infer_instance

instance (l : List Char) : Decidable (printableAll l) := by
  unfold printableAll
  exact List.decidableBAll _ l

theorem printableAll_nil : printableAll [] := by
  intro c hc
  simp at hc

theorem printableAll_cons {c : Char} {t : List Char} (h1 : printable c)
    (h2 : printableAll t) : printableAll (c :: t) := by
  intro d hd
  rcases List.mem_cons.mp hd with rfl | hd
  · exact h1
  · exact h2 d hd

theorem printableAll_append {l1 l2 : List Char} (h1 : printableAll l1)
    (h2 : printableAll l2) : printableAll (l1 ++ l2) := by
  intro d hd
  rcases List.mem_append.mp hd with hd | hd
  · exact h1 d hd
  · exact h2 d hd

theorem digitChar_printable : ∀ k, k < 16 → printable (Nat.digitChar k) := by decide

theorem natDigits_printable {base : Nat} (hb : 2 ≤ base) (hb16 : base ≤ 16) (n : Nat) :
    printableAll (natDigits base n) := by
  intro c hc
  obtain ⟨k, hk, rfl⟩ := natDigits_chars base hb n c hc
  exact digitChar_printable k (by omega)

theorem hex4_printable (N : Nat) : printableAll (hex4 N) := by
  rw [hex4]
  refine printableAll_cons (digitChar_printable _ (Nat.mod_lt _ (by omega))) ?_
  refine printableAll_cons (digitChar_printable _ (Nat.mod_lt _ (by omega))) ?_
  refine printableAll_cons (digitChar_printable _ (Nat.mod_lt _ (by omega))) ?_
  exact printableAll_cons (digitChar_printable _ (Nat.mod_lt _ (by omega))) printableAll_nil

theorem escChar_printable (c : Char) : printableAll (escChar c) := by
  unfold escChar
  split_ifs with hq hbs hpr h08 h09 h0a h0c h0d hbmp
  · decide
  · decide
  · refine printableAll_cons ?_ printableAll_nil
    simp only [Bool.and_eq_true, decide_eq_true_eq] at hpr
    exact hpr
  · decide
  · decide
  · decide
  · decide
  · decide
  · exact printableAll_cons (by decide) (printableAll_cons (by decide) (hex4_printable _))
  · refine printableAll_append
      (printableAll_cons (by decide) (printableAll_cons (by decide) (hex4_printable _)))
      (printableAll_cons (by decide) (printableAll_cons (by decide) (hex4_printable _)))

theorem escape_printable : ∀ (s : List Char), printableAll (escape s)
  | [] => printableAll_nil
  | c :: cs => by
    rw [show escape (c :: cs) = escChar c ++ escape cs from rfl]
    exact printableAll_append (escChar_printable c) (escape_printable cs)

theorem dumpsStr_printable (k : String) : printableAll (dumpsStr k) := by
  rw [dumpsStr]
  exact printableAll_cons (by decide)
    (printableAll_append (escape_printable k.data)
      (printableAll_cons (by decide) printableAll_nil))

theorem dumpsInt_printable (n : Int) : printableAll (dumpsInt n) := by
  rw [dumpsInt]
  split_ifs
  · exact printableAll_cons (by decide) (natDigits_printable (by norm_num) (by norm_num) _)
  · exact natDigits_printable (by norm_num) (by norm_num) _

mutual

theorem dumpsVal_printable : ∀ (v : Json), printableAll (dumpsVal v)
  | .null => by decide
  | .bool true => by decide
  | .bool false => by decide
  | .num n => dumpsInt_printable n
  | .str s => dumpsStr_printable s
  | .arr [] => by decide
  | .arr (x :: xs) => by
    rw [show dumpsVal (.arr (x :: xs))
        = '[' :: (dumpsVal x ++ dumpsElems xs) ++ [']'] from rfl]
    rw [List.cons_append]
    refine printableAll_cons (by decide) (printableAll_append
      (printableAll_append (dumpsVal_printable x) (dumpsElems_printable xs)) ?_)
    decide
  | .obj [] => by decide
  | .obj ((k, v) :: ms) => by
    rw [show dumpsVal (.obj ((k, v) :: ms))
        = '{' :: (dumpsStr k ++ ':' :: ' ' :: dumpsVal v ++ dumpsMembers ms) ++ ['}'] from rfl]
    rw [List.cons_append]
    refine printableAll_cons (by decide) (printableAll_append (printableAll_append
      (printableAll_append (dumpsStr_printable k)
        (printableAll_cons (show printable ':' from by decide)
          (printableAll_cons (show printable ' ' from by decide)
            (dumpsVal_printable v))))
      (dumpsMembers_printable ms)) ?_)
    decide

theorem dumpsElems_printable : ∀ (l : List Json), printableAll (dumpsElems l)
  | [] => printableAll_nil
  | x :: xs => by
    rw [show dumpsElems (x :: xs) = ',' :: ' ' :: dumpsVal x ++ dumpsElems xs from rfl]
    exact printableAll_cons (by decide) (printableAll_cons (by decide)
      (printableAll_append (dumpsVal_printable x) (dumpsElems_printable xs)))

theorem dumpsMembers_printable : ∀ (l : List (String × Json)), printableAll (dumpsMembers l)
  | [] => printableAll_nil
  | (k, v) :: ms => by
    rw [show dumpsMembers ((k, v) :: ms)
        = ',' :: ' ' :: (dumpsStr k ++ ':' :: ' ' :: dumpsVal v) ++ dumpsMembers ms from rfl]
    exact printableAll_cons (by decide) (printableAll_cons (by decide)
      (printableAll_append (printableAll_append (dumpsStr_printable k)
        (printableAll_cons (by decide) (printableAll_cons (by decide)
          (dumpsVal_printable v)))) (dumpsMembers_printable ms)))

end

/-- The compact serialization never contains a newline: a printed envelope
is exactly one line. -/
theorem dumps_no_newline (v : Json) : ¬ '\n' ∈ (dumps v).data := by
  intro h
  have hpr := dumpsVal_printable v '\n' h
  exact absurd hpr (by decide)

/-! ## Behaviour of the trace machinery -/

/-- On a well-formed context (a span id accompanies any trace id — true of
every context the SDK itself produces), `add_trace_headers` never raises:
it returns the ensured context and the headers rendered from it. -/
theorem add_trace_headers_wf (rt rs : Nat) (ctx : Context)
    (hwf : ctx.traceid.isSome → ctx.spanid.isSome) :
    ∃ t s, (ensure_trace rt rs ctx).traceid = some t ∧
      (ensure_trace rt rs ctx).spanid = some s ∧
      add_trace_headers rt rs ctx
        = some (ensure_trace rt rs ctx, ⟨"00-" ++ t ++ "-" ++ s ++ "-01", t, s⟩) := by
  by_cases h : ctx.traceid = none
  · refine ⟨(create_trace_id rt rs).1, (create_trace_id rt rs).2, ?_, ?_, ?_⟩
    · simp [ensure_trace, h]
    · simp [ensure_trace, h]
    · simp [add_trace_headers, ensure_trace, h]
  · obtain ⟨t, ht⟩ := Option.ne_none_iff_exists'.mp h
    have hs := hwf (by simp [ht])
    obtain ⟨s, hs'⟩ := Option.isSome_iff_exists.mp hs
    refine ⟨t, s, ?_, ?_, ?_⟩
    · simp [ensure_trace, h, ht]
    · simp [ensure_trace, h, hs']
    · simp [add_trace_headers, ensure_trace, h, ht, hs']

/-- Once the context carries a pair, every later call reuses it unchanged:
the whole run returns the same context, one identical header per call, and
zero generations. -/
theorem runTrace_set (ctx : Context) (t s : String)
    (ht : ctx.traceid = some t) (hs : ctx.spanid = some s) :
    ∀ calls : List (Nat × Nat),
      runTrace ctx calls
        = (ctx, List.replicate calls.length ⟨"00-" ++ t ++ "-" ++ s ++ "-01", t, s⟩, 0)
  | [] => rfl
  | (rt, rs) :: rest => by
    have hnn : ¬ ctx.traceid = none := by simp [ht]
    have hens : ensure_trace rt rs ctx = ctx := by rw [ensure_trace, if_neg hnn]
    have hat : add_trace_headers rt rs ctx
        = some (ctx, ⟨"00-" ++ t ++ "-" ++ s ++ "-01", t, s⟩) := by
      rw [add_trace_headers]
      simp only [hens, ht, hs]
    rw [runTrace, hat]
    simp only [runTrace_set ctx t s ht hs rest, List.length_cons, List.replicate_succ, hnn,
      if_false]

/-! ## Further supporting lemmas for the claims -/

theorem lookup_filter_token : ∀ ms : List (String × Json),
    List.lookup "TOKEN" (ms.filter fun p => p.1 != "TOKEN") = none
  | [] => rfl
  | (k, v) :: ms => by
    by_cases h : k = "TOKEN"
    · subst h
      rw [List.filter_cons]
      simp only [bne_self_eq_false, Bool.false_eq_true, if_false]
      exact lookup_filter_token ms
    · rw [List.filter_cons]
      have hbne : (k != "TOKEN") = true := by simp [h]
      rw [if_pos hbne, List.lookup]
      have hsym : ("TOKEN" == k) = false := by
        simp only [beq_eq_false_iff_ne]
        exact fun hc => h hc.symm
      rw [hsym]
      exact lookup_filter_token ms

theorem filter_token_middle (pre post : List (String × Json)) (v : Json) :
    (pre ++ ("TOKEN", v) :: post).filter (fun p => p.1 != "TOKEN")
      = pre.filter (fun p => p.1 != "TOKEN") ++ post.filter (fun p => p.1 != "TOKEN") := by
  rw [List.filter_append, List.filter_cons]
  simp

theorem digitChar_isLowerHex : ∀ k, k < 16 → isLowerHex (Nat.digitChar k) = true := by decide

theorem padZeroes_length {w : Nat} {l : List Char} (h : l.length ≤ w) :
    (padZeroes w l).length = w := by
  simp [padZeroes]
  omega

theorem padZeroes_chars {w : Nat} {l : List Char} (hl : ∀ c ∈ l, isLowerHex c = true) :
    ∀ c ∈ padZeroes w l, isLowerHex c = true := by
  intro c hc
  rcases List.mem_append.mp hc with hc | hc
  · rw [List.eq_of_mem_replicate hc]
    decide
  · exact hl c hc

theorem natDigits16_lower (n : Nat) : ∀ c ∈ natDigits 16 n, isLowerHex c = true := by
  intro c hc
  obtain ⟨k, hk, rfl⟩ := natDigits_chars 16 (by norm_num) n c hc
  exact digitChar_isLowerHex k hk

/-- The first call on a fresh context generates the pair once; the rest of
the run reuses it, so every header of the run is the same. -/
theorem runTrace_fresh (ctx : Context) (hn : ctx.traceid = none) (rt rs : Nat)
    (rest : List (Nat × Nat)) :
    runTrace ctx ((rt, rs) :: rest)
      = (ensure_trace rt rs ctx,
         List.replicate (rest.length + 1)
           ⟨"00-" ++ (create_trace_id rt rs).1 ++ "-" ++ (create_trace_id rt rs).2 ++ "-01",
            (create_trace_id rt rs).1, (create_trace_id rt rs).2⟩,
         1) := by
  have hens_t : (ensure_trace rt rs ctx).traceid = some (create_trace_id rt rs).1 := by
    simp [ensure_trace, hn]
  have hens_s : (ensure_trace rt rs ctx).spanid = some (create_trace_id rt rs).2 := by
    simp [ensure_trace, hn]
  have hat : add_trace_headers rt rs ctx
      = some (ensure_trace rt rs ctx,
          ⟨"00-" ++ (create_trace_id rt rs).1 ++ "-" ++ (create_trace_id rt rs).2 ++ "-01",
           (create_trace_id rt rs).1, (create_trace_id rt rs).2⟩) := by
    rw [add_trace_headers]
    simp only [hens_t, hens_s]
  rw [runTrace, hat]
  simp only [runTrace_set _ _ _ hens_t hens_s rest, hn, if_true, List.replicate_succ]

/-! ## The claims -/

/-- C2: for every mapping `m` (association list with distinct keys, the
image of a Python dict) and comment string `c`, parsing the JSON text
returned by `process_content(ENDED, c, m)` yields exactly
`{wo_status: "ENDED", wo_comment: c, wo_newparams: m}`. -/
theorem C2_encode_roundtrip (members : List (String × Json)) (c : String)
    (_hm : jsonDictOk (.obj members) = true) :
    loads (process_content ENDED c (.obj members) false).1
      = some (.obj [("wo_status", .str "ENDED"), ("wo_comment", .str c),
          ("wo_newparams", .obj members)]) :=
  loads_dumps _

theorem C2_encode_roundtrip_witness :
    jsonDictOk (.obj [("x", .num 1)]) = true ∧
    loads (process_content ENDED "done" (.obj [("x", .num 1)]) false).1
      = some (.obj [("wo_status", .str "ENDED"), ("wo_comment", .str "done"),
          ("wo_newparams", .obj [("x", .num 1)])]) :=
  ⟨by decide, C2_encode_roundtrip [("x", .num 1)] "done" (by decide)⟩

/-- C9 counterexample: the claim says GET passes no enforced timeout
default of its own, but `_call_get`'s signature reads `timeout=60`, so GET
defaults to 60 seconds exactly like POST. -/
theorem C9_counterexample :
    get_default_timeout = some 60 ∧ ¬ get_default_timeout = none :=
  ⟨rfl, by decide⟩

/-- C9 (amended): when no timeout is specified, POST and GET both default
to 60 seconds; PUT and DELETE pass no timeout of their own (the transport
default applies). -/
theorem C9_timeout_defaults :
    post_default_timeout = some 60 ∧ get_default_timeout = some 60 ∧
    put_request_timeout = none ∧ delete_request_timeout = none :=
  ⟨rfl, rfl, rfl, rfl⟩

/-- C10: when no response text is stored (or the stored text is empty) the
`content` property returns `'{}'`, which parses as the empty JSON object;
and `content` is never the empty string. -/
theorem C10_content_default (st : MSAState) :
    (st.contentRaw = "" → content st = "{}" ∧ loads (content st) = some (.obj [])) ∧
    ¬ content st = "" := by
  constructor
  · intro h
    rw [content, if_pos h]
    exact ⟨rfl, rfl⟩
  · rw [content]
    split_ifs with h
    · decide
    · exact h

theorem C10_content_default_witness :
    (init_state ⟨"token", none, none⟩).contentRaw = "" ∧
    (content (init_state ⟨"token", none, none⟩) = "{}" ∧
      loads (content (init_state ⟨"token", none, none⟩)) = some (.obj [])) ∧
    ¬ content (init_state ⟨"token", none, none⟩) = "" :=
  ⟨rfl, (C10_content_default _).1 rfl, (C10_content_default _).2⟩

/-- C7: redaction of `TOKEN` on the logging path.  The text returned to the
caller with logging on equals the text with logging off; the log line is
built exactly from the copy with the `TOKEN` member removed; the sanitized
copy has no `TOKEN` key; and the logged output does not depend on the token
value at all (the embedding is pure, so the caller's mapping is never
mutated). -/
theorem C7_token_redaction (status c : String) (pre post : List (String × Json)) (v : Json) :
    ((process_content status c (.obj (pre ++ ("TOKEN", v) :: post)) true).1
      = (process_content status c (.obj (pre ++ ("TOKEN", v) :: post)) false).1) ∧
    ((process_content status c (.obj (pre ++ ("TOKEN", v) :: post)) true).2
      = [pdumps (removeTOKEN (.obj (pre ++ ("TOKEN", v) :: post)))]) ∧
    (jlookup (removeTOKEN (.obj (pre ++ ("TOKEN", v) :: post))) "TOKEN" = none) ∧
    (∀ v2 : Json, (process_content status c (.obj (pre ++ ("TOKEN", v) :: post)) true).2
      = (process_content status c (.obj (pre ++ ("TOKEN", v2) :: post)) true).2) := by
  refine ⟨rfl, rfl, ?_, ?_⟩
  · exact lookup_filter_token _
  · intro v2
    show [pdumps (removeTOKEN (.obj (pre ++ ("TOKEN", v) :: post)))]
      = [pdumps (removeTOKEN (.obj (pre ++ ("TOKEN", v2) :: post)))]
    rw [removeTOKEN, removeTOKEN, filter_token_middle, filter_token_middle]

/-- C5: for every draw of the process-wide random source (`rt` below
`16 ** 32` and `rs` below `6 ** 23`, the `randrange` bounds in the source),
the trace id is exactly 32 lowercase hexadecimal characters and the span id
exactly 16. -/
theorem C5_trace_id_format (rt rs : Nat) (hrt : rt < 16 ^ 32) (hrs : rs < 6 ^ 23) :
    (create_trace_id rt rs).1.length = 32 ∧ (create_trace_id rt rs).2.length = 16 ∧
    (∀ c ∈ (create_trace_id rt rs).1.data, isLowerHex c = true) ∧
    (∀ c ∈ (create_trace_id rt rs).2.data, isLowerHex c = true) := by
  have h1 : (natDigits 16 rt).length ≤ 32 :=
    natDigits_length_le 16 (by norm_num) rt 32 (by norm_num) hrt
  have hrs16 : rs < 16 ^ 16 := lt_of_lt_of_le hrs (by norm_num)
  have h2 : (natDigits 16 rs).length ≤ 16 :=
    natDigits_length_le 16 (by norm_num) rs 16 (by norm_num) hrs16
  refine ⟨?_, ?_, ?_, ?_⟩
  · show (padZeroes 32 (natDigits 16 rt)).length = 32
    exact padZeroes_length h1
  · show (padZeroes 16 (natDigits 16 rs)).length = 16
    exact padZeroes_length h2
  · exact padZeroes_chars (natDigits16_lower rt)
  · exact padZeroes_chars (natDigits16_lower rs)

theorem C5_trace_id_format_witness :
    (0 : Nat) < 16 ^ 32 ∧ (0 : Nat) < 6 ^ 23 ∧
    ((create_trace_id 0 0).1.length = 32 ∧ (create_trace_id 0 0).2.length = 16 ∧
     (∀ c ∈ (create_trace_id 0 0).1.data, isLowerHex c = true) ∧
     (∀ c ∈ (create_trace_id 0 0).2.data, isLowerHex c = true)) :=
  ⟨by norm_num, by norm_num, C5_trace_id_format 0 0 (by norm_num) (by norm_num)⟩

/-- A client state that has just received a mocked non-2xx response whose
body is the JSON object with `message` equal to `"bad input"`, during an
action named `Command execute` (as `order.py` sets `self.action`). -/
def c1_state : MSAState :=
  { init_state ⟨"token", none, none⟩ with
      response := some ⟨false, "server error body", some (.obj [("message", .str "bad input")])⟩,
      contentRaw := "server error body" }

/-- C1 counterexample: after classifying that failing response, the decoded
envelope has `wo_status` FAILED, but its `wo_comment` is the action string
`"Command execute"` — which does not contain the message `"bad input"` —
while the message sits in `wo_newparams`.  The source passes `self.action`
as the comment argument and the message as the new-params argument. -/
theorem C1_counterexample :
    (check_response "Command execute" c1_state).2 = none ∧
    loads (check_response "Command execute" c1_state).1.contentRaw
      = some (.obj [("wo_status", .str "FAILED"), ("wo_comment", .str "Command execute"),
          ("wo_newparams", .str "bad input")]) ∧
    strHasSub "bad input".data "Command execute".data = false := by
  refine ⟨rfl, ?_, rfl⟩
  rfl

/-- C1 (amended): for every call whose response is not ok and whose body is
JSON with a `message` field, the content becomes a FAILED envelope whose
`wo_comment` is the failing action's name and whose `wo_newparams` carries
the extracted message (the comment and context slots are the transpose of
what the claim states). -/
theorem C1_failure_envelope (action : String) (st : MSAState) (r : Response) (j msg : Json)
    (hresp : st.response = some r) (hok : r.ok = false) (hjson : r.jsonBody = some j)
    (hmsg : jlookup j "message" = some msg) :
    check_response action st
      = ({ st with contentRaw := (process_content FAILED action msg false).1 }, none) ∧
    loads (check_response action st).1.contentRaw
      = some (.obj [("wo_status", .str "FAILED"), ("wo_comment", .str action),
          ("wo_newparams", msg)]) := by
  have h1 : check_response action st
      = ({ st with contentRaw := (process_content FAILED action msg false).1 }, none) := by
    rw [check_response, hresp]
    simp only [hok, Bool.false_eq_true, if_false, hjson, hmsg]
  refine ⟨h1, ?_⟩
  rw [h1]
  exact loads_dumps _

theorem C1_failure_envelope_witness :
    c1_state.response
      = some ⟨false, "server error body", some (.obj [("message", .str "bad input")])⟩ ∧
    (false : Bool) = false ∧
    jlookup (.obj [("message", .str "bad input")]) "message" = some (.str "bad input") ∧
    (check_response "Get Microservices" c1_state
      = ({ c1_state with
            contentRaw :=
              (process_content FAILED "Get Microservices" (.str "bad input") false).1 }, none) ∧
     loads (check_response "Get Microservices" c1_state).1.contentRaw
      = some (.obj [("wo_status", .str "FAILED"), ("wo_comment", .str "Get Microservices"),
          ("wo_newparams", .str "bad input")])) :=
  ⟨rfl, rfl, rfl,
   C1_failure_envelope "Get Microservices" c1_state
     ⟨false, "server error body", some (.obj [("message", .str "bad input")])⟩
     (.obj [("message", .str "bad input")]) (.str "bad input") rfl rfl rfl rfl⟩

/-- C3: POST with a provided non-mapping body raises `TypeError` (the
source's realization of the spec's `InvalidPayload`) before any network
activity: zero HTTP calls, nothing serialized, and the client's
response/content state is exactly as before the call.  The context is
assumed well-formed (a span id accompanies any trace id), which holds for
every context the SDK produces. -/
theorem C3_post_nonmapping (action : String) (body : PostBody) (resp : Response)
    (rt rs : Nat) (st : MSAState) (ctx : Context)
    (hnd : body.isDict = false)
    (hwf : ctx.traceid.isSome → ctx.spanid.isSome) :
    (call_post action (some body) resp rt rs st ctx).raised = some .typeError ∧
    (call_post action (some body) resp rt rs st ctx).httpCalls = 0 ∧
    (call_post action (some body) resp rt rs st ctx).sentBody = none ∧
    (call_post action (some body) resp rt rs st ctx).state = st := by
  obtain ⟨t, s, _, _, hat⟩ := add_trace_headers_wf rt rs ctx hwf
  cases body with
  | dict ms => simp [PostBody.isDict] at hnd
  | pylist l => simp [call_post, hat]
  | pystr s2 => simp [call_post, hat]
  | pyint n => simp [call_post, hat]
  | pybool b => simp [call_post, hat]

theorem C3_post_nonmapping_witness :
    (PostBody.pystr "oops").isDict = false ∧
    ((call_post "Command execute" (some (.pystr "oops")) ⟨true, "", none⟩ 0 0
        (init_state ⟨"token", none, none⟩) ⟨"token", none, none⟩).raised
      = some .typeError ∧
     (call_post "Command execute" (some (.pystr "oops")) ⟨true, "", none⟩ 0 0
        (init_state ⟨"token", none, none⟩) ⟨"token", none, none⟩).httpCalls = 0 ∧
     (call_post "Command execute" (some (.pystr "oops")) ⟨true, "", none⟩ 0 0
        (init_state ⟨"token", none, none⟩) ⟨"token", none, none⟩).sentBody = none ∧
     (call_post "Command execute" (some (.pystr "oops")) ⟨true, "", none⟩ 0 0
        (init_state ⟨"token", none, none⟩) ⟨"token", none, none⟩).state
      = init_state ⟨"token", none, none⟩) :=
  ⟨rfl, C3_post_nonmapping "Command execute" (.pystr "oops") ⟨true, "", none⟩ 0 0
    (init_state ⟨"token", none, none⟩) ⟨"token", none, none⟩ rfl (by decide)⟩

/-- C4: trace creation is idempotent and the pair is a run-wide invariant.
If the context already holds a trace id, the creation guard returns it
unchanged (never overwrites); over any sequence of calls, every call
carries the same header triple; and at most one pair is ever generated.
Well-formedness of the starting context (span id present whenever a trace
id is) is assumed, as for every context the SDK produces. -/
theorem C4_trace_invariant (ctx : Context) (calls : List (Nat × Nat))
    (hwf : ctx.traceid.isSome → ctx.spanid.isSome) :
    (∀ t rt rs, ctx.traceid = some t → ensure_trace rt rs ctx = ctx) ∧
    (∀ h1 ∈ (runTrace ctx calls).2.1, ∀ h2 ∈ (runTrace ctx calls).2.1, h1 = h2) ∧
    (runTrace ctx calls).2.2 ≤ 1 := by
  refine ⟨?_, ?_, ?_⟩
  · intro t rt rs ht
    rw [ensure_trace, if_neg (by simp [ht])]
  · cases hcase : ctx.traceid with
    | some t =>
      obtain ⟨s, hs⟩ := Option.isSome_iff_exists.mp (hwf (by simp [hcase]))
      rw [runTrace_set ctx t s hcase hs calls]
      intro h1 hm1 h2 hm2
      rw [List.eq_of_mem_replicate hm1, List.eq_of_mem_replicate hm2]
    | none =>
      cases calls with
      | nil =>
        intro h1 hm1
        simp [runTrace] at hm1
      | cons p rest =>
        rw [runTrace_fresh ctx hcase p.1 p.2 rest]
        intro h1 hm1 h2 hm2
        rw [List.eq_of_mem_replicate hm1, List.eq_of_mem_replicate hm2]
  · cases hcase : ctx.traceid with
    | some t =>
      obtain ⟨s, hs⟩ := Option.isSome_iff_exists.mp (hwf (by simp [hcase]))
      rw [runTrace_set ctx t s hcase hs calls]
      exact Nat.zero_le 1
    | none =>
      cases calls with
      | nil => exact Nat.zero_le 1
      | cons p rest =>
        rw [runTrace_fresh ctx hcase p.1 p.2 rest]

theorem C4_trace_invariant_witness :
    ((⟨"token", none, none⟩ : Context).traceid.isSome →
      (⟨"token", none, none⟩ : Context).spanid.isSome) ∧
    ((∀ t rt rs, (⟨"token", none, none⟩ : Context).traceid = some t →
        ensure_trace rt rs ⟨"token", none, none⟩ = ⟨"token", none, none⟩) ∧
     (∀ h1 ∈ (runTrace ⟨"token", none, none⟩ [(0, 0), (1, 2)]).2.1,
        ∀ h2 ∈ (runTrace ⟨"token", none, none⟩ [(0, 0), (1, 2)]).2.1, h1 = h2) ∧
     (runTrace ⟨"token", none, none⟩ [(0, 0), (1, 2)]).2.2 ≤ 1) :=
  ⟨by decide, C4_trace_invariant ⟨"token", none, none⟩ [(0, 0), (1, 2)] (by decide)⟩

/-- C6: `task_success` emits exactly one line — the ENDED envelope with the
given comment and context mapping — with exit code 0, and `task_error`
emits the same shape with FAILED and exit code 1; both lines are valid
JSON (parsing them recovers the envelope object) and contain no newline. -/
theorem C6_task_report (c : String) (members : List (String × Json))
    (_hm : jsonDictOk (.obj members) = true) :
    (task_success c (.obj members) true).exitCode = 0 ∧
    (task_error c (.obj members) true).exitCode = 1 ∧
    loads (task_success c (.obj members) true).stdout
      = some (.obj [("wo_status", .str "ENDED"), ("wo_comment", .str c),
          ("wo_newparams", .obj members)]) ∧
    loads (task_error c (.obj members) true).stdout
      = some (.obj [("wo_status", .str "FAILED"), ("wo_comment", .str c),
          ("wo_newparams", .obj members)]) ∧
    ¬ '\n' ∈ (task_success c (.obj members) true).stdout.data ∧
    ¬ '\n' ∈ (task_error c (.obj members) true).stdout.data :=
  ⟨rfl, rfl, loads_dumps _, loads_dumps _, dumps_no_newline _, dumps_no_newline _⟩

theorem C6_task_report_witness :
    jsonDictOk (.obj [("x", .num 1)]) = true ∧
    ((task_success "done" (.obj [("x", .num 1)]) true).exitCode = 0 ∧
     (task_error "done" (.obj [("x", .num 1)]) true).exitCode = 1 ∧
     loads (task_success "done" (.obj [("x", .num 1)]) true).stdout
      = some (.obj [("wo_status", .str "ENDED"), ("wo_comment", .str "done"),
          ("wo_newparams", .obj [("x", .num 1)])]) ∧
     loads (task_error "done" (.obj [("x", .num 1)]) true).stdout
      = some (.obj [("wo_status", .str "FAILED"), ("wo_comment", .str "done"),
          ("wo_newparams", .obj [("x", .num 1)])]) ∧
     ¬ '\n' ∈ (task_success "done" (.obj [("x", .num 1)]) true).stdout.data ∧
     ¬ '\n' ∈ (task_error "done" (.obj [("x", .num 1)]) true).stdout.data) :=
  ⟨by decide, C6_task_report "done" [("x", .num 1)] (by decide)⟩

/-- The ambient context of the C8 scenario (token `"abc"`). -/
def c8_ctx : Context := ⟨"abc", none, none⟩

/-- C8 counterexample: an ok (2xx) response with an empty body leaves the
stored text empty, but the public `content` property then reads `'{}'`,
not the raw response text verbatim. -/
theorem C8_counterexample :
    (call_get "Get Microservices" ⟨true, "", some (.obj [])⟩ 0 0
        (init_state c8_ctx) c8_ctx).raised = none ∧
    (call_get "Get Microservices" ⟨true, "", some (.obj [])⟩ 0 0
        (init_state c8_ctx) c8_ctx).state.contentRaw = "" ∧
    content (call_get "Get Microservices" ⟨true, "", some (.obj [])⟩ 0 0
        (init_state c8_ctx) c8_ctx).state = "{}" ∧
    ¬ content (call_get "Get Microservices" ⟨true, "", some (.obj [])⟩ 0 0
        (init_state c8_ctx) c8_ctx).state = "" := by
  refine ⟨rfl, rfl, rfl, by decide⟩

/-- C8 (amended): on an ok (2xx) response the raw body text is stored
verbatim with no envelope wrapping, the call raises nothing and issues
exactly one request, and the public `content` property returns the body
verbatim whenever it is nonempty (an empty ok body reads back as `'{}'`
through the property). -/
theorem C8_ok_raw_text (action : String) (resp : Response) (rt rs : Nat)
    (st : MSAState) (ctx : Context)
    (hok : resp.ok = true)
    (hwf : ctx.traceid.isSome → ctx.spanid.isSome) :
    (call_get action resp rt rs st ctx).state.contentRaw = resp.text ∧
    (call_get action resp rt rs st ctx).raised = none ∧
    (call_get action resp rt rs st ctx).httpCalls = 1 ∧
    (¬ resp.text = "" → content (call_get action resp rt rs st ctx).state = resp.text) := by
  obtain ⟨t, s, _, _, hat⟩ := add_trace_headers_wf rt rs ctx hwf
  have hchk : check_response action { st with response := some resp, contentRaw := resp.text }
      = ({ st with response := some resp, contentRaw := resp.text }, none) := by
    rw [check_response]
    simp only [hok, if_true]
  refine ⟨?_, ?_, ?_, ?_⟩
  · simp [call_get, hat, hchk]
  · simp [call_get, hat, hchk]
  · simp [call_get, hat, hchk]
  · intro hne
    rw [show (call_get action resp rt rs st ctx).state
        = { st with response := some resp, contentRaw := resp.text } from by
      simp [call_get, hat, hchk]]
    rw [content]
    simp [hne]

theorem C8_ok_raw_text_witness :
    (true : Bool) = true ∧
    ((call_get "Get Microservices" ⟨true, "[\"svc1\",\"svc2\"]",
        some (.arr [.str "svc1", .str "svc2"])⟩ 0 0 (init_state c8_ctx) c8_ctx).state.contentRaw
      = "[\"svc1\",\"svc2\"]" ∧
     (call_get "Get Microservices" ⟨true, "[\"svc1\",\"svc2\"]",
        some (.arr [.str "svc1", .str "svc2"])⟩ 0 0 (init_state c8_ctx) c8_ctx).raised = none ∧
     (call_get "Get Microservices" ⟨true, "[\"svc1\",\"svc2\"]",
        some (.arr [.str "svc1", .str "svc2"])⟩ 0 0 (init_state c8_ctx) c8_ctx).httpCalls = 1 ∧
     (¬ ("[\"svc1\",\"svc2\"]" : String) = "" →
       content (call_get "Get Microservices" ⟨true, "[\"svc1\",\"svc2\"]",
          some (.arr [.str "svc1", .str "svc2"])⟩ 0 0 (init_state c8_ctx) c8_ctx).state
        = "[\"svc1\",\"svc2\"]")) :=
  ⟨rfl, C8_ok_raw_text "Get Microservices"
    ⟨true, "[\"svc1\",\"svc2\"]", some (.arr [.str "svc1", .str "svc2"])⟩ 0 0
    (init_state c8_ctx) c8_ctx rfl (by decide)⟩

end MsaSdk
